import Mathlib

/-!
Verification development for the book-distribution-frontend repository.

This file shallowly embeds the client-side reconciliation computations of the
repository (ActiveTripsPage.tsx, ReportsPage.tsx, and the Dashboard component)
into Lean and proves properties about them.

Modelling conventions:
- JS numbers are modelled as Int.  All numeric record fields that the code
  reads through a presence/NaN guard (the TS operators ?? and typeof checks)
  are modelled as Option Int, with none standing for a missing, non-numeric
  or NaN value: the code collapses all of those to the same default, so the
  abstraction is faithful on every code path embedded here.
- Raw text-input values flowing through Number(rawValue) are modelled by the
  inductive InputVal: empty (the rawValue === "" branch), nan (a string whose
  Number conversion is NaN), or num n.
- JS objects used as string-keyed maps (Map, Record) are modelled as
  association lists in insertion order, which is exactly the iteration order
  JS guarantees for Map and for non-index string keys of plain objects.
-/

namespace BookDist

/-- A Book reference as populated by the backend (client.ts interface Book).
The pages access its fields defensively, so they are optional here. -/
structure Book where
  _id : Option String
  productName : Option String
  salePrice : Option Int
  deriving Repr, DecidableEq

/-- A Distributor reference (client.ts interface Distributor). -/
structure Distributor where
  _id : Option String
  name : Option String
  deriving Repr, DecidableEq

/-- A TripItem (client.ts interface TripItem).  book is none when the backend
sent an unpopulated/missing reference. quantitySold none models a missing,
non-number or NaN value (the code guards it with typeof/isNaN checks). -/
structure TripItem where
  book : Option Book
  quantityOut : Option Int
  quantityReturn : Option Int
  quantitySold : Option Int
  amountReturned : Option Int
  differenceReason : Option String
  deriving Repr, DecidableEq

/-- A Trip (client.ts interface Trip) restricted to the fields the embedded
computations read.  date is a string per the client.ts declaration. -/
structure Trip where
  _id : String
  date : String
  distributor : Option Distributor
  items : List TripItem
  cashAmount : Option Int
  onlineAmount : Option Int
  deriving Repr, DecidableEq

/-- Models the value of a text input as seen through Number(rawValue):
the empty string, a non-numeric string (NaN), or a number. -/
inductive InputVal where
  | empty
  | nan
  | num (n : Int)
  deriving Repr, DecidableEq

/-! ## ActiveTripsPage.tsx: item metric derivation -/

/-- Reads item.quantityOut ?? 0 (ActiveTripsPage.tsx line 73). -/
def qtyOutOf (it : TripItem) : Int := it.quantityOut.getD 0

/-- Reads item.quantityReturn ?? 0 (ActiveTripsPage.tsx line 74). -/
def qtyRetOf (it : TripItem) : Int := it.quantityReturn.getD 0

/-- itemRemaining = Math.max(qtyOut - qtyRet, 0) (ActiveTripsPage.tsx line 75). -/
def itemRemaining (it : TripItem) : Int := max (qtyOutOf it - qtyRetOf it) 0

/-- The rawSold read: item.quantitySold when it is a number and not NaN,
otherwise 0 (ActiveTripsPage.tsx lines 77-80). -/
def rawSoldOf (it : TripItem) : Int := it.quantitySold.getD 0

/-- getSoldForItem (ActiveTripsPage.tsx lines 72-84):
safeSold = Math.max(0, Math.min(rawSold, itemRemaining)). -/
def getSoldForItem (it : TripItem) : Int :=
  max 0 (min (rawSoldOf it) (itemRemaining it))

/-- price = item.book?.salePrice ?? 0 (ActiveTripsPage.tsx line 94). -/
def priceOf (it : TripItem) : Int :=
  match it.book with
  | some b => b.salePrice.getD 0
  | none => 0

/-- expected = itemRemaining * price (ActiveTripsPage.tsx line 96). -/
def itemExpected (it : TripItem) : Int := itemRemaining it * priceOf it

/-- returnedAmt = item.amountReturned ?? 0 (ActiveTripsPage.tsx line 97). -/
def returnedAmtOf (it : TripItem) : Int := it.amountReturned.getD 0

/-- The per-trip summary record produced by computeTripSummary
(ActiveTripsPage.tsx lines 108-115). -/
structure TripSummary where
  booksOut : Int
  booksReturn : Int
  booksSold : Int
  expectedAmount : Int
  amountReturned : Int
  difference : Int
  deriving Repr, DecidableEq

/-- The all-zero accumulator seed of computeTripSummary. -/
def TripSummary.zero : TripSummary :=
  { booksOut := 0, booksReturn := 0, booksSold := 0,
    expectedAmount := 0, amountReturned := 0, difference := 0 }

/-- Component-wise addition of trip summaries. -/
def TripSummary.add (a b : TripSummary) : TripSummary :=
  { booksOut := a.booksOut + b.booksOut
    booksReturn := a.booksReturn + b.booksReturn
    booksSold := a.booksSold + b.booksSold
    expectedAmount := a.expectedAmount + b.expectedAmount
    amountReturned := a.amountReturned + b.amountReturned
    difference := a.difference + b.difference }

/-- The item-level metric bundle that one reduce step of computeTripSummary
adds into the accumulator (ActiveTripsPage.tsx lines 89-98). -/
def itemMetrics (it : TripItem) : TripSummary :=
  { booksOut := qtyOutOf it
    booksReturn := qtyRetOf it
    booksSold := getSoldForItem it
    expectedAmount := itemExpected it
    amountReturned := returnedAmtOf it
    difference := returnedAmtOf it - itemExpected it }

/-- One reduce step of computeTripSummary (ActiveTripsPage.tsx lines 88-107):
each field of the accumulator is incremented by the item-level value. -/
def summaryStep (acc : TripSummary) (it : TripItem) : TripSummary :=
  { booksOut := acc.booksOut + qtyOutOf it
    booksReturn := acc.booksReturn + qtyRetOf it
    booksSold := acc.booksSold + getSoldForItem it
    expectedAmount := acc.expectedAmount + itemExpected it
    amountReturned := acc.amountReturned + returnedAmtOf it
    difference := acc.difference + (returnedAmtOf it - itemExpected it) }

/-- computeTripSummary (ActiveTripsPage.tsx lines 87-117): a reduce over the
trip's items starting from the all-zero accumulator. -/
def computeTripSummary (trip : Trip) : TripSummary :=
  trip.items.foldl summaryStep TripSummary.zero

example : computeTripSummary
    { _id := "t", date := "2024-01-05", distributor := none, items := [],
      cashAmount := none, onlineAmount := none } = TripSummary.zero := by rfl

example :
    getSoldForItem
      { book := none, quantityOut := some 10, quantityReturn := some 3,
        quantitySold := none, amountReturned := none,
        differenceReason := none } = 0 := by decide

/-! ## ActiveTripsPage.tsx: edit handlers -/

/-- Effect of handleItemSoldChange on the targeted item
(ActiveTripsPage.tsx lines 208-231): an empty rawValue stores 0 directly;
otherwise parsed (NaN coerced to 0) is clamped into the closed interval
from 0 to itemRemaining and stored as quantitySold. -/
def soldChangeItem (it : TripItem) (v : InputVal) : TripItem :=
  let r := max (it.quantityOut.getD 0 - it.quantityReturn.getD 0) 0
  match v with
  | .empty => { it with quantitySold := some 0 }
  | .nan => { it with quantitySold := some (max 0 (min 0 r)) }
  | .num n => { it with quantitySold := some (max 0 (min n r)) }

/-- Effect of handleQtyOutChange on the targeted item
(ActiveTripsPage.tsx lines 248-274): the new quantityOut is the parsed value
clamped to be at least 0 (empty/NaN become 0); in the same object the stored
quantitySold is re-clamped against the remaining computed from the NEW
quantityOut. -/
def qtyOutChangeItem (it : TripItem) (v : InputVal) : TripItem :=
  let newQtyOut : Int :=
    match v with
    | .empty => 0
    | .nan => 0
    | .num n => max 0 n
  let r := max (newQtyOut - it.quantityReturn.getD 0) 0
  let currentSold := it.quantitySold.getD 0
  let safeSold := max 0 (min currentSold r)
  { it with quantityOut := some newQtyOut, quantitySold := some safeSold }

/-- The numeric fields handleItemChange can set
(ActiveTripsPage.tsx lines 179-184, numeric callers at lines 662-716). -/
inductive NumField where
  | quantityReturn
  | amountReturned
  deriving Repr, DecidableEq

/-- Effect of handleItemChange on the targeted item for a numeric field
(ActiveTripsPage.tsx lines 190-192): the raw value is stored verbatim with
no clamping.  The UI callers pass 0 for an empty string and
Number(e.target.value) otherwise (lines 666-669 and 712-715). -/
def itemChangeItem (it : TripItem) (f : NumField) (v : Int) : TripItem :=
  match f with
  | .quantityReturn => { it with quantityReturn := some v }
  | .amountReturned => { it with amountReturned := some v }

/-- Value stored by handleCashOrOnlineChange
(ActiveTripsPage.tsx lines 290-297): empty becomes 0, NaN becomes 0, a
number is clamped to be at least 0. -/
def cashOnlineVal (v : InputVal) : Int :=
  match v with
  | .empty => 0
  | .nan => 0
  | .num n => max 0 n

/-- Replace the item at the given index of a list, leaving the others
unchanged: the items.map((it, idx) => idx === itemIndex ? f it : it)
pattern used by every item-level handler. -/
def mapAtIdx (f : TripItem → TripItem) (itemIndex : Nat) :
    List TripItem → Nat → List TripItem
  | [], _ => []
  | it :: rest, idx =>
      (if idx = itemIndex then f it else it) :: mapAtIdx f itemIndex rest (idx + 1)

/-- handleItemSoldChange at the trips-state level
(ActiveTripsPage.tsx lines 199-236): one state transition mapping over the
trips, rewriting only the targeted trip's targeted item. -/
def handleItemSoldChange (trips : List Trip) (tripId : String)
    (itemIndex : Nat) (raw : InputVal) : List Trip :=
  trips.map fun trip =>
    if trip._id = tripId then
      { trip with items := mapAtIdx (fun it => soldChangeItem it raw) itemIndex trip.items 0 }
    else trip

/-- handleQtyOutChange at the trips-state level
(ActiveTripsPage.tsx lines 239-279): one state transition mapping over the
trips, rewriting only the targeted trip's targeted item. -/
def handleQtyOutChange (trips : List Trip) (tripId : String)
    (itemIndex : Nat) (raw : InputVal) : List Trip :=
  trips.map fun trip =>
    if trip._id = tripId then
      { trip with items := mapAtIdx (fun it => qtyOutChangeItem it raw) itemIndex trip.items 0 }
    else trip

/-! ## ActiveTripsPage.tsx: cash/online cross-check (lines 508-512) -/

/-- cash = trip.cashAmount ?? 0 (line 508). -/
def cashOf (t : Trip) : Int := t.cashAmount.getD 0

/-- online = trip.onlineAmount ?? 0 (line 509). -/
def onlineOf (t : Trip) : Int := t.onlineAmount.getD 0

/-- cashOnlineTotal = cash + online (line 511). -/
def cashOnlineTotal (t : Trip) : Int := cashOf t + onlineOf t

/-- diffFromReturned = cashOnlineTotal - totalReturned, where totalReturned
is the trip summary's amountReturned (lines 510-512). -/
def diffFromReturned (t : Trip) : Int :=
  cashOnlineTotal t - (computeTripSummary t).amountReturned

/-! ## String-keyed maps in insertion order

JS Map and plain objects with non-index string keys iterate in insertion
order.  Both report aggregations and the dashboard day buckets follow the
same pattern: ensure an entry exists for a key (appending a fresh one at the
end if absent), then mutate that entry in place.  We model this with
association lists and the two generic operations below. -/

/-- The keys of an association list. -/
def keysOf {β : Type} (m : List (String × β)) : List String := m.map Prod.fst

/-- Models map.has(k) ? map : map.set(k, v0): append a fresh entry at the end
if the key is absent, otherwise leave the map unchanged. -/
def ensureKey {β : Type} (k : String) (v0 : β) (m : List (String × β)) :
    List (String × β) :=
  if m.any (fun p => p.1 = k) then m else m ++ [(k, v0)]

/-- Models in-place mutation of the entry stored under a key. -/
def updKey {β : Type} (k : String) (f : β → β) (m : List (String × β)) :
    List (String × β) :=
  m.map fun p => if p.1 = k then (p.1, f p.2) else p

/-! ## ReportsPage.tsx: per-book aggregation (bookSummaries, lines 114-191) -/

/-- sold = Math.max(quantityOut - quantityReturn, 0)
(ReportsPage.tsx lines 139-141): the report derivation of sold ignores any
stored quantitySold and treats everything not returned as sold. -/
def reportSold (it : TripItem) : Int := max (qtyOutOf it - qtyRetOf it) 0

/-- expectedAmount = sold * price (ReportsPage.tsx line 142), with
price = bookObj.salePrice ?? 0 (line 137). -/
def reportExpected (it : TripItem) : Int := reportSold it * priceOf it

/-- JS truthiness test of a possibly-missing string: undefined, null and the
empty string are falsy. -/
def truthyStr : Option String → Bool
  | none => false
  | some s => !s.isEmpty

/-- The continue-guard of the per-book loop (ReportsPage.tsx line 133):
an item participates only when its book is populated AND carries a truthy
_id. -/
def bookIncluded (it : TripItem) : Bool :=
  match it.book with
  | some b => truthyStr b._id
  | none => false

/-- One per-book summary entry (ReportsPage.tsx type BookSummary,
lines 4-12). -/
structure BookSummaryRec where
  bookId : String
  productName : String
  totalOut : Int
  totalReturned : Int
  totalSold : Int
  expectedAmount : Int
  amountCollected : Int
  deriving Repr, DecidableEq

/-- The zero entry installed when a book is first seen
(ReportsPage.tsx lines 147-157). -/
def freshBookRec (bookId productName : String) : BookSummaryRec :=
  { bookId := bookId, productName := productName, totalOut := 0,
    totalReturned := 0, totalSold := 0, expectedAmount := 0,
    amountCollected := 0 }

/-- The per-item increments applied to a book summary entry
(ReportsPage.tsx lines 158-163). -/
def bookAddItem (it : TripItem) (r : BookSummaryRec) : BookSummaryRec :=
  { r with
    totalOut := r.totalOut + qtyOutOf it
    totalReturned := r.totalReturned + qtyRetOf it
    totalSold := r.totalSold + reportSold it
    expectedAmount := r.expectedAmount + reportExpected it
    amountCollected := r.amountCollected + returnedAmtOf it }

/-- Processing of one item by the per-book loop (ReportsPage.tsx
lines 131-164): skip unless the book is resolved with a truthy _id, else
ensure the summary entry exists and add the item-level values into it. -/
def bookStep (m : List (String × BookSummaryRec)) (it : TripItem) :
    List (String × BookSummaryRec) :=
  match it.book with
  | none => m
  | some b =>
      if truthyStr b._id then
        let bid := b._id.getD ""
        let nm := b.productName.getD "Unknown Book"
        updKey bid (bookAddItem it) (ensureKey bid (freshBookRec bid nm) m)
      else m

/-- The summary map built by bookSummaries over all trips (ReportsPage.tsx
lines 124-179).  The final sort by productName (lines 186-188) only permutes
the entries and is omitted: every statement proved below is a sum over the
entries, which is invariant under that permutation. -/
def bookSummariesMap (trips : List Trip) : List (String × BookSummaryRec) :=
  trips.foldl (fun m t => t.items.foldl bookStep m) []

/-- Sum of a projection over the entries of an association list. -/
def sumEntries {β : Type} (g : β → Int) (m : List (String × β)) : Int :=
  (m.map fun p => g p.2).sum

/-! ## ReportsPage.tsx: per-distributor aggregation (distributorData,
lines 197-270) -/

/-- One per-distributor summary entry (ReportsPage.tsx type
DistributorSummary, lines 26-34).  difference is filled in by a final map
over the summaries (lines 255-258). -/
structure DistSummaryRec where
  distributorId : String
  distributorName : String
  tripsCount : Int
  booksSold : Int
  expectedAmount : Int
  amountCollected : Int
  deriving Repr, DecidableEq

/-- distributorId = distObj?._id || "unknown" (ReportsPage.tsx line 203). -/
def distKeyOf (t : Trip) : String :=
  match t.distributor with
  | some d => if truthyStr d._id then d._id.getD "" else "unknown"
  | none => "unknown"

/-- distributorName = distObj?.name || "Unknown Distributor"
(ReportsPage.tsx line 204). -/
def distNameOf (t : Trip) : String :=
  match t.distributor with
  | some d => if truthyStr d.name then d.name.getD "" else "Unknown Distributor"
  | none => "Unknown Distributor"

/-- The zero entry installed when a distributor is first seen
(ReportsPage.tsx lines 208-218). -/
def freshDistRec (distributorId distributorName : String) : DistSummaryRec :=
  { distributorId := distributorId, distributorName := distributorName,
    tripsCount := 0, booksSold := 0, expectedAmount := 0, amountCollected := 0 }

/-- The per-item increments applied to a distributor summary entry
(ReportsPage.tsx lines 237-239).  The guard at line 226 skips items with no
populated book; this derivation uses the same sold/expected formulas as the
per-book one (lines 231-235). -/
def distAddItem (it : TripItem) (r : DistSummaryRec) : DistSummaryRec :=
  { r with
    booksSold := r.booksSold + reportSold it
    expectedAmount := r.expectedAmount + reportExpected it
    amountCollected := r.amountCollected + returnedAmtOf it }

/-- The continue-guard of the per-distributor loop (ReportsPage.tsx
line 226): only presence of the book object is required, NOT a truthy _id. -/
def distIncluded (it : TripItem) : Bool := it.book.isSome

/-- Processing of one trip by the per-distributor loop (ReportsPage.tsx
lines 201-252): ensure the entry, bump tripsCount, then fold the items. -/
def distStep (m : List (String × DistSummaryRec)) (t : Trip) :
    List (String × DistSummaryRec) :=
  let k := distKeyOf t
  let m1 := ensureKey k (freshDistRec k (distNameOf t)) m
  let m2 := updKey k (fun r => { r with tripsCount := r.tripsCount + 1 }) m1
  t.items.foldl
    (fun acc it => if distIncluded it then updKey k (distAddItem it) acc else acc)
    m2

/-- The summary map built by distributorData over all trips (ReportsPage.tsx
lines 197-270).  The final difference computation and localeCompare sort only
rewrite a field not compared here and permute entries; they are omitted for
the same reason as in bookSummariesMap. -/
def distSummariesMap (trips : List Trip) : List (String × DistSummaryRec) :=
  trips.foldl distStep []

/-! ## Dashboard component: day aggregator (dailyAggs) -/

/-- One per-day per-book detail row (Dashboard type DailyBookDetail).
bookName is none when the populated book object has no productName (the
code stores the raw, possibly undefined, productName); a missing book
object yields the literal string Unknown. -/
structure DailyBookDetail where
  bookName : Option String
  sold : Int
  expectedAmount : Int
  amountCollected : Int
  deriving Repr, DecidableEq

/-- One day bucket (Dashboard type DailyAgg). -/
structure DailyAgg where
  date : String
  booksSold : Int
  expectedAmount : Int
  amountCollected : Int
  details : List DailyBookDetail
  deriving Repr, DecidableEq

/-- The empty bucket installed when a date is first seen (Dashboard
dailyAggs, lines 100-108 of the component). -/
def dashEmptyAgg (date : String) : DailyAgg :=
  { date := date, booksSold := 0, expectedAmount := 0, amountCollected := 0,
    details := [] }

/-- sold for the dashboard derivation: Math.max(item.quantityOut -
(item.quantityReturn || 0), 0) (Dashboard line 112).  quantityOut is
required by the TripItem interface; the OR-default on quantityReturn
coincides with the getD 0 default on integers. -/
def dashSold (it : TripItem) : Int := max (qtyOutOf it - qtyRetOf it) 0

/-- price for the dashboard derivation (Dashboard lines 113-116): the
salePrice of the populated book object, 0 when the book is not populated
(for integers the OR-default used there agrees with getD 0). -/
def dashPrice (it : TripItem) : Int :=
  match it.book with
  | some b => b.salePrice.getD 0
  | none => 0

/-- bookName for the detail rows (Dashboard lines 124-127): the raw
productName of the populated book object, or the literal string Unknown
when the book is not populated. -/
def dashBookName (it : TripItem) : Option String :=
  match it.book with
  | some b => b.productName
  | none => some "Unknown"

/-- Appending an item into the per-book detail rows of a bucket (Dashboard
lines 129-141): the first row with the same bookName is updated in place,
otherwise a new row is pushed at the end. -/
def dashAddDetail (nm : Option String) (s e c : Int) :
    List DailyBookDetail → List DailyBookDetail
  | [] => [{ bookName := nm, sold := s, expectedAmount := e, amountCollected := c }]
  | d :: rest =>
      if d.bookName = nm then
        { d with
          sold := d.sold + s
          expectedAmount := d.expectedAmount + e
          amountCollected := d.amountCollected + c } :: rest
      else d :: dashAddDetail nm s e c rest

/-- Adding one item into a day bucket (Dashboard lines 111-142). -/
def dashAddItem (a : DailyAgg) (it : TripItem) : DailyAgg :=
  let sold := dashSold it
  let expected := sold * dashPrice it
  let collected := returnedAmtOf it
  { a with
    booksSold := a.booksSold + sold
    expectedAmount := a.expectedAmount + expected
    amountCollected := a.amountCollected + collected
    details := dashAddDetail (dashBookName it) sold expected collected a.details }

/-- Processing of one trip by the day aggregator (Dashboard lines 98-143):
the bucket key is the RAW trip.date string, with no normalization or
truncation. -/
def dashTripStep (m : List (String × DailyAgg)) (t : Trip) :
    List (String × DailyAgg) :=
  let m1 := ensureKey t.date (dashEmptyAgg t.date) m
  t.items.foldl (fun acc it => updKey t.date (fun a => dashAddItem a it) acc) m1

/-- The byDate record of the day aggregator (Dashboard lines 96-143). -/
def dashByDate (trips : List Trip) : List (String × DailyAgg) :=
  trips.foldl dashTripStep []

/-- Insertion into a descending-by-date list: the comparator
(a, b) => a.date < b.date ? 1 : -1 of Dashboard line 147 sorts the buckets
strictly descending by date string (the keys are distinct).  The JS string
comparison is code-unit lexicographic; it is expressed here on the
character lists, which String.lt_iff_toList_lt identifies with the string
order. -/
def insertDesc (a : DailyAgg) : List DailyAgg → List DailyAgg
  | [] => [a]
  | b :: rest =>
      if b.date.data < a.date.data then a :: b :: rest else b :: insertDesc a rest

/-- Descending sort of the buckets by date string (Dashboard line 147). -/
def sortByDateDesc (l : List DailyAgg) : List DailyAgg :=
  l.foldr insertDesc []

/-- dailyAggs (Dashboard lines 95-149): bucket values sorted descending by
date with only the first 7 kept (slice(0, 7) at line 148). -/
def dailyAggs (trips : List Trip) : List DailyAgg :=
  (sortByDateDesc ((dashByDate trips).map Prod.snd)).take 7

/-! ## normalizeDate (ActiveTripsPage.tsx lines 7-15, ReportsPage.tsx
lines 47-57; the two copies are textually identical) -/

/-- The kinds of value normalizeDate can receive.  falsy covers every JS
falsy input (undefined, null, 0, NaN, empty string); str covers string
inputs; nonString covers non-string values, carrying some iso when
new Date(d).toISOString() succeeds with result iso, and none when the Date
conversion yields an invalid date so that toISOString throws the RangeError
swallowed by the catch. -/
inductive DateInput where
  | falsy
  | str (s : String)
  | nonString (iso : Option String)
  deriving Repr, DecidableEq

/-- normalizeDate: a falsy input yields the empty string (line 8); a string
is truncated to its first 10 characters (line 9); a non-string is converted
to its ISO representation and truncated (line 11), with a failed conversion
yielding the empty string via the catch (lines 12-13).  The function is
total: every branch returns a string.  The isEmpty guard on the str
constructor mirrors the fact that the falsy check at line 8 fires first for
the empty string. -/
def normalizeDate : DateInput → String
  | .falsy => ""
  | .str s => if s.isEmpty then "" else s.take 10
  | .nonString none => ""
  | .nonString (some iso) => iso.take 10

/-- The component-wise sum of the item-level metric bundles of a list of
items: the mathematical sum the Trip Aggregator is claimed to compute. -/
def sumMetrics (l : List TripItem) : TripSummary :=
  (l.map itemMetrics).foldl TripSummary.add TripSummary.zero

/-- Sum of a per-item value over exactly the items accepted by a filter:
the direct, ungrouped total the report grouping maps are compared with. -/
def itemsTotal (included : TripItem → Bool) (gi : TripItem → Int)
    (items : List TripItem) : Int :=
  ((items.filter included).map gi).sum

/-- Direct per-item total over a whole trip list. -/
def tripsTotal (included : TripItem → Bool) (gi : TripItem → Int)
    (trips : List Trip) : Int :=
  (trips.map fun t => itemsTotal included gi t.items).sum

/-! ## Concrete fixtures for scenario-level statements -/

/-- A fully resolved book with unit price 20. -/
def exBook1 : Book :=
  { _id := some "b1", productName := some "Book One", salePrice := some 20 }

/-- A second fully resolved book with unit price 15. -/
def exBook2 : Book :=
  { _id := some "b2", productName := some "Book Two", salePrice := some 15 }

/-- Scenario A item: quantityOut 10, quantityReturn 3, quantitySold missing,
unit price 20. -/
def exItemA : TripItem :=
  { book := some exBook1,
    quantityOut := some 10, quantityReturn := some 3, quantitySold := none,
    amountReturned := some 0, differenceReason := none }

/-- A populated book object that carries no _id. -/
def exBookNoId : Book :=
  { _id := none, productName := some "Ghost Book", salePrice := some 20 }

/-- An item whose book object is populated but lacks an _id: skipped by the
per-book loop, counted by the per-distributor loop. -/
def exItemNoId : TripItem :=
  { book := some exBookNoId, quantityOut := some 10, quantityReturn := some 3,
    quantitySold := none, amountReturned := some 5, differenceReason := none }

/-- A one-item trip exercising the per-book versus per-distributor
discrepancy. -/
def exTripNoId : Trip :=
  { _id := "t1", date := "2024-01-05", distributor := none,
    items := [exItemNoId], cashAmount := none, onlineAmount := none }

/-- A trip whose single item has a fully resolved book: both report views
count it. -/
def exTripResolved : Trip :=
  { _id := "t2", date := "2024-01-06",
    distributor := some { _id := some "d1", name := some "Dist One" },
    items := [exItemA], cashAmount := none, onlineAmount := none }

/-- A trip dated with a full ISO datetime string. -/
def exTripIsoDate : Trip :=
  { _id := "t3", date := "2024-01-05T10:00:00Z", distributor := none,
    items := [], cashAmount := none, onlineAmount := none }

/-- A trip dated with a plain calendar-day string sharing the same day as
exTripIsoDate. -/
def exTripPlainDate : Trip :=
  { _id := "t4", date := "2024-01-05", distributor := none,
    items := [], cashAmount := none, onlineAmount := none }

/-- Scenario C item before the edit: quantityOut 10, quantityReturn 3,
quantitySold 8. -/
def exItemC : TripItem :=
  { book := none, quantityOut := some 10, quantityReturn := some 3,
    quantitySold := some 8, amountReturned := some 0,
    differenceReason := none }

/-- Scenario C trip state before the quantityOut edit. -/
def exTripC : Trip :=
  { _id := "t5", date := "2024-01-05", distributor := none,
    items := [exItemC], cashAmount := none, onlineAmount := none }

/-- Scenario C item after editing quantityOut to 2: remaining 0 forces the
stored quantitySold down to 0 in the same object. -/
def exItemCAfter : TripItem :=
  { book := none, quantityOut := some 2, quantityReturn := some 3,
    quantitySold := some 0, amountReturned := some 0,
    differenceReason := none }

/-- Scenario D item: amountReturned 100. -/
def exItemD : TripItem :=
  { book := none, quantityOut := some 0, quantityReturn := some 0,
    quantitySold := none, amountReturned := some 100,
    differenceReason := none }

/-- Scenario D trip: cashAmount 50, onlineAmount 30, one item with
amountReturned 100. -/
def exTripD : Trip :=
  { _id := "t6", date := "2024-01-05", distributor := none,
    items := [exItemD], cashAmount := some 50, onlineAmount := some 30 }

/-- A second item used to exhibit permutation invariance of the trip
aggregate. -/
def exItemB : TripItem :=
  { book := some exBook2,
    quantityOut := some 4, quantityReturn := some 1, quantitySold := some 2,
    amountReturned := some 30, differenceReason := none }

/-- A two-item trip. -/
def exTripAB : Trip :=
  { _id := "t7", date := "2024-01-05", distributor := none,
    items := [exItemA, exItemB], cashAmount := none, onlineAmount := none }

/-- The same trip with its items swapped. -/
def exTripBA : Trip :=
  { _id := "t7", date := "2024-01-05", distributor := none,
    items := [exItemB, exItemA], cashAmount := none, onlineAmount := none }

/-- A trip with no items. -/
def exTripEmpty : Trip :=
  { _id := "t8", date := "2024-01-05", distributor := none,
    items := [], cashAmount := none, onlineAmount := none }

/-- An item with no populated book reference. -/
def exItemNoBook : TripItem :=
  { book := none, quantityOut := some 3, quantityReturn := some 1,
    quantitySold := none, amountReturned := some 10,
    differenceReason := none }

/-! ## Claim theorems -/

/-- C1: in the report derivation of item metrics, an item with no explicit
numeric quantitySold resolves its effective sold quantity to itemRemaining
(ReportsPage.tsx always computes sold as the remaining, so in particular
when quantitySold is absent); on Scenario A (out 10, return 3, sold missing,
price 20) this gives itemRemaining 7, sold 7 and expectedAmount 140. -/
theorem report_sold_fallback_to_remaining :
    (∀ it : TripItem, it.quantitySold = none → reportSold it = itemRemaining it) ∧
    itemRemaining exItemA = 7 ∧ reportSold exItemA = 7 ∧
    reportExpected exItemA = 140 := by
  refine ⟨fun it _ => rfl, by decide, by decide, by decide⟩

/-- Witness for report_sold_fallback_to_remaining at Scenario A's item. -/
theorem report_sold_fallback_to_remaining_witness :
    exItemA.quantitySold = none ∧ reportSold exItemA = itemRemaining exItemA :=
  ⟨by decide, report_sold_fallback_to_remaining.1 exItemA (by decide)⟩

/-- C4: every effective sold quantity lies in the closed interval from 0 to
itemRemaining, both as read by getSoldForItem and as stored by the sold
input handler, whatever the input (number, negative, NaN-like or empty). -/
theorem effective_sold_in_range :
    ∀ (it : TripItem) (v : InputVal),
      0 ≤ getSoldForItem it ∧ getSoldForItem it ≤ itemRemaining it ∧
      0 ≤ (soldChangeItem it v).quantitySold.getD 0 ∧
      (soldChangeItem it v).quantitySold.getD 0 ≤
        itemRemaining (soldChangeItem it v) := by
  intro it v
  cases v <;>
    simp [getSoldForItem, soldChangeItem, itemRemaining, qtyOutOf, qtyRetOf,
      rawSoldOf] <;> omega

/-- C5: the quantityOut edit handler re-clamps the stored quantitySold in
the same update: in general the produced item satisfies sold between 0 and
its new remaining, and on Scenario C (return 3, sold 8, quantityOut edited
from 10 to 2) the single state transition of handleQtyOutChange yields
remaining 0 and sold 0, with no intermediate state: the handler produces
the fully re-clamped trip list in one function application. -/
theorem qty_out_edit_reclamps_sold :
    (∀ (it : TripItem) (v : InputVal),
      0 ≤ (qtyOutChangeItem it v).quantitySold.getD 0 ∧
      (qtyOutChangeItem it v).quantitySold.getD 0 ≤
        itemRemaining (qtyOutChangeItem it v)) ∧
    handleQtyOutChange [exTripC] "t5" 0 (.num 2) =
      [{ exTripC with items := [exItemCAfter] }] ∧
    itemRemaining exItemCAfter = 0 ∧ exItemCAfter.quantitySold = some 0 := by
  refine ⟨?_, by decide, by decide, by decide⟩
  intro it v
  cases v <;>
    simp [qtyOutChangeItem, itemRemaining, qtyOutOf, qtyRetOf] <;> omega

/-- C6 counterexample: handleItemChange stores the raw value with no
clamping, so an edit of quantityReturn (and likewise amountReturned) can
store a negative value, contradicting the claim that those inputs are
clamped to be non-negative. -/
theorem item_change_stores_negative :
    ¬ (∀ (it : TripItem) (v : Int),
        0 ≤ (itemChangeItem it .quantityReturn v).quantityReturn.getD 0 ∧
        0 ≤ (itemChangeItem it .amountReturned v).amountReturned.getD 0) := by
  intro h
  have := (h exItemA (-5)).1
  simp [itemChangeItem, exItemA] at this

/-- C6 amended: of the edit operations, only the quantityOut handler and
the cash/online handler clamp to non-negative; the generic handleItemChange
used for quantityReturn and amountReturned stores the parsed value
verbatim, so those edits can introduce negative stored values. -/
theorem clamped_edits_amended :
    (∀ (it : TripItem) (v : InputVal),
      0 ≤ (qtyOutChangeItem it v).quantityOut.getD 0) ∧
    (∀ v : InputVal, 0 ≤ cashOnlineVal v) ∧
    (∀ (it : TripItem) (v : Int),
      (itemChangeItem it .quantityReturn v).quantityReturn = some v ∧
      (itemChangeItem it .amountReturned v).amountReturned = some v) := by
  refine ⟨?_, ?_, fun it v => ⟨rfl, rfl⟩⟩
  · intro it v
    cases v <;> simp [qtyOutChangeItem]
  · intro v
    cases v <;> simp [cashOnlineVal]

/-- C7: for every item, the expected amount is exactly itemRemaining times
the unit price, in both the active-trips derivation and the report
derivation (whose sold equals itemRemaining), and the price resolves to 0
when the book reference is missing, with every branch total. -/
theorem expected_amount_exact :
    (∀ it : TripItem, itemExpected it = itemRemaining it * priceOf it) ∧
    (∀ it : TripItem, reportExpected it = itemRemaining it * priceOf it) ∧
    (∀ it : TripItem, it.book = none → priceOf it = 0) := by
  refine ⟨fun it => rfl, fun it => rfl, ?_⟩
  intro it h
  simp [priceOf, h]

/-- Witness for expected_amount_exact at an item with no book. -/
theorem expected_amount_exact_witness :
    exItemNoBook.book = none ∧ priceOf exItemNoBook = 0 :=
  ⟨rfl, expected_amount_exact.2.2 exItemNoBook rfl⟩

/-- C9: the cash/online cross-check is the pure derivation
cashOnlineTotal = cash + online and
diffFromReturned = cashOnlineTotal - amountReturned of the trip aggregate
(both read the trip and modify nothing); with cash 50, online 30 and items
whose amountReturned sums to 100, diffFromReturned is -20. -/
theorem cash_online_cross_check :
    (∀ t : Trip, cashOnlineTotal t = cashOf t + onlineOf t) ∧
    (∀ t : Trip, diffFromReturned t =
      cashOnlineTotal t - (computeTripSummary t).amountReturned) ∧
    (∀ t : Trip, t.cashAmount = some 50 → t.onlineAmount = some 30 →
      (computeTripSummary t).amountReturned = 100 → diffFromReturned t = -20) := by
  refine ⟨fun t => rfl, fun t => rfl, ?_⟩
  intro t hc ho hr
  simp [diffFromReturned, cashOnlineTotal, cashOf, onlineOf, hc, ho, hr]

/-- Witness for cash_online_cross_check at Scenario D's trip. -/
theorem cash_online_cross_check_witness :
    exTripD.cashAmount = some 50 ∧ exTripD.onlineAmount = some 30 ∧
    (computeTripSummary exTripD).amountReturned = 100 ∧
    diffFromReturned exTripD = -20 :=
  ⟨by decide, by decide, by decide,
    cash_online_cross_check.2.2 exTripD (by decide) (by decide) (by decide)⟩

section AssocLemmas

variable {β : Type}

/-- Unfolding of updKey on a cons cell. -/
theorem updKey_cons (k : String) (f : β → β) (p : String × β)
    (rest : List (String × β)) :
    updKey k f (p :: rest) =
      (if p.1 = k then (p.1, f p.2) else p) :: updKey k f rest := rfl

/-- updKey does not change the key list. -/
theorem keysOf_updKey (k : String) (f : β → β) :
    ∀ m : List (String × β), keysOf (updKey k f m) = keysOf m := by
  intro m
  induction m with
  | nil => rfl
  | cons p rest ih =>
      rw [updKey_cons]
      by_cases h : p.1 = k <;> simp [keysOf, h] at ih ⊢ <;> exact ih

/-- updKey at an absent key is the identity. -/
theorem updKey_not_mem (k : String) (f : β → β) :
    ∀ m : List (String × β), k ∉ keysOf m → updKey k f m = m := by
  intro m
  induction m with
  | nil => intro _; rfl
  | cons p rest ih =>
      intro h
      rw [updKey_cons]
      have h1 : p.1 ≠ k := by
        intro he
        exact h (by simp [keysOf, he])
      have h2 : k ∉ keysOf rest := by
        intro hk
        exact h (by simp [keysOf]; exact Or.inr (by simpa [keysOf] using hk))
      simp [h1, ih h2]

/-- Unfolding of sumEntries on a cons cell. -/
theorem sumEntries_cons (g : β → Int) (p : String × β)
    (m : List (String × β)) :
    sumEntries g (p :: m) = g p.2 + sumEntries g m := by
  simp [sumEntries]

/-- Updating the (unique) entry at a present key adds that entry's delta to
the entry sum. -/
theorem sumEntries_updKey {g : β → Int} {k : String} {f : β → β} {d : Int}
    (hf : ∀ v, g (f v) = g v + d) :
    ∀ m : List (String × β), (keysOf m).Nodup → k ∈ keysOf m →
      sumEntries g (updKey k f m) = sumEntries g m + d := by
  intro m
  induction m with
  | nil => intro _ hmem; simp [keysOf] at hmem
  | cons p rest ih =>
      intro hnd hmem
      have hnd' : (keysOf rest).Nodup := by
        simpa [keysOf] using hnd.of_cons
      rw [updKey_cons]
      by_cases h : p.1 = k
      · have hnd2 : (p.1 :: keysOf rest).Nodup := hnd
        have hk : k ∉ keysOf rest := by
          have := (List.nodup_cons.mp hnd2).1
          rwa [h] at this
        rw [updKey_not_mem k f rest hk]
        simp [h, sumEntries_cons, hf]
        ring
      · have hmem' : k ∈ keysOf rest := by
          rcases (by simpa [keysOf] using hmem : k = p.1 ∨ k ∈ keysOf rest) with he | hm
          · exact absurd he.symm h
          · exact hm
        simp [h, sumEntries_cons, ih hnd' hmem']
        ring

/-- Ensuring a key with a zero-valued fresh entry leaves the entry sum
unchanged. -/
theorem sumEntries_ensureKey (g : β → Int) (k : String) (v0 : β)
    (m : List (String × β)) (h0 : g v0 = 0) :
    sumEntries g (ensureKey k v0 m) = sumEntries g m := by
  unfold ensureKey
  split
  · rfl
  · simp [sumEntries, h0]

/-- After ensureKey the key is present. -/
theorem mem_keysOf_ensureKey (k : String) (v0 : β) (m : List (String × β)) :
    k ∈ keysOf (ensureKey k v0 m) := by
  unfold ensureKey
  split
  · rename_i h
    obtain ⟨p, hp, hpk⟩ := List.any_eq_true.mp h
    exact List.mem_map.mpr ⟨p, hp, of_decide_eq_true hpk⟩
  · simp [keysOf]

/-- Keys only grow under ensureKey. -/
theorem keysOf_subset_ensureKey (k : String) (v0 : β)
    (m : List (String × β)) : keysOf m ⊆ keysOf (ensureKey k v0 m) := by
  unfold ensureKey
  split
  · exact fun x hx => hx
  · simp only [keysOf, List.map_append]
    exact List.subset_append_left _ _

/-- ensureKey preserves key distinctness. -/
theorem nodup_keysOf_ensureKey {k : String} {v0 : β}
    {m : List (String × β)} (h : (keysOf m).Nodup) :
    (keysOf (ensureKey k v0 m)).Nodup := by
  unfold ensureKey
  split
  · exact h
  · rename_i hna
    have hk : k ∉ keysOf m := by
      intro hkm
      obtain ⟨p, hp, hpk⟩ := List.mem_map.mp hkm
      have : m.any (fun p => p.1 = k) = true :=
        List.any_eq_true.mpr ⟨p, hp, decide_eq_true hpk⟩
      exact hna this
    simp only [keysOf, List.map_append, List.map_cons, List.map_nil]
    rw [List.nodup_append]
    refine ⟨h, List.nodup_singleton k, ?_⟩
    intro a ha hak
    have hae : a = k := by simpa using hak
    exact hk (hae ▸ ha)

end AssocLemmas

/-- Unfolding of itemsTotal on a cons cell. -/
theorem itemsTotal_cons (included : TripItem → Bool) (gi : TripItem → Int)
    (it : TripItem) (rest : List TripItem) :
    itemsTotal included gi (it :: rest) =
      (if included it then gi it else 0) + itemsTotal included gi rest := by
  simp only [itemsTotal, List.filter_cons]
  split <;> simp

/-- bookStep preserves key distinctness. -/
theorem nodup_keysOf_bookStep {m : List (String × BookSummaryRec)}
    (it : TripItem) (h : (keysOf m).Nodup) :
    (keysOf (bookStep m it)).Nodup := by
  cases hb : it.book with
  | none => simpa [bookStep, hb] using h
  | some b =>
      by_cases ht : truthyStr b._id
      · simp only [bookStep, hb, ht, if_pos]
        rw [keysOf_updKey]
        exact nodup_keysOf_ensureKey h
      · simpa [bookStep, hb, ht] using h

/-- bookStep adds exactly the included item's contribution to any entry sum
whose projection is additive over bookAddItem and zero on fresh entries. -/
theorem sumEntries_bookStep {g : BookSummaryRec → Int} {gi : TripItem → Int}
    (hf : ∀ it v, g (bookAddItem it v) = g v + gi it)
    (h0 : ∀ bid nm, g (freshBookRec bid nm) = 0)
    (it : TripItem) (m : List (String × BookSummaryRec))
    (hnd : (keysOf m).Nodup) :
    sumEntries g (bookStep m it) =
      sumEntries g m + (if bookIncluded it then gi it else 0) := by
  cases hb : it.book with
  | none => simp [bookStep, hb, bookIncluded]
  | some b =>
      by_cases ht : truthyStr b._id
      · simp only [bookStep, hb, ht, if_pos, bookIncluded]
        rw [sumEntries_updKey (hf it) _ (nodup_keysOf_ensureKey hnd)
            (mem_keysOf_ensureKey _ _ _),
          sumEntries_ensureKey g _ _ _ (h0 _ _)]
      · simp [bookStep, hb, ht, bookIncluded]

/-- Folding the per-book step over an item list adds the direct filtered
item total to the entry sum. -/
theorem sumEntries_bookFold {g : BookSummaryRec → Int} {gi : TripItem → Int}
    (hf : ∀ it v, g (bookAddItem it v) = g v + gi it)
    (h0 : ∀ bid nm, g (freshBookRec bid nm) = 0) :
    ∀ (items : List TripItem) (m : List (String × BookSummaryRec)),
      (keysOf m).Nodup →
      sumEntries g (items.foldl bookStep m) =
        sumEntries g m + itemsTotal bookIncluded gi items := by
  intro items
  induction items with
  | nil => intro m _; simp [itemsTotal]
  | cons it rest ih =>
      intro m hnd
      rw [List.foldl_cons, ih _ (nodup_keysOf_bookStep it hnd),
        sumEntries_bookStep hf h0 it m hnd, itemsTotal_cons]
      ring

/-- Folding the per-book step preserves key distinctness. -/
theorem nodup_keysOf_bookFold :
    ∀ (items : List TripItem) (m : List (String × BookSummaryRec)),
      (keysOf m).Nodup → (keysOf (items.foldl bookStep m)).Nodup := by
  intro items
  induction items with
  | nil => intro m h; exact h
  | cons it rest ih =>
      intro m h
      exact ih _ (nodup_keysOf_bookStep it h)

/-- The entry sums of the per-book summary map are the direct item totals
over the items with a resolved, id-carrying book. -/
theorem sumEntries_bookSummariesMap (g : BookSummaryRec → Int)
    (gi : TripItem → Int)
    (hf : ∀ it v, g (bookAddItem it v) = g v + gi it)
    (h0 : ∀ bid nm, g (freshBookRec bid nm) = 0) (trips : List Trip) :
    sumEntries g (bookSummariesMap trips) =
      tripsTotal bookIncluded gi trips := by
  suffices h : ∀ (ts : List Trip) (m : List (String × BookSummaryRec)),
      (keysOf m).Nodup →
      sumEntries g (ts.foldl (fun m t => t.items.foldl bookStep m) m) =
        sumEntries g m + tripsTotal bookIncluded gi ts by
    simpa [sumEntries, keysOf, bookSummariesMap, tripsTotal] using
      h trips [] (by simp [keysOf])
  intro ts
  induction ts with
  | nil => intro m _; simp [tripsTotal]
  | cons t rest ih =>
      intro m hnd
      rw [List.foldl_cons, ih _ (nodup_keysOf_bookFold t.items m hnd),
        sumEntries_bookFold hf h0 t.items m hnd]
      simp [tripsTotal]
      ring

/-- Unfolding of distStep. -/
theorem distStep_eq (m : List (String × DistSummaryRec)) (t : Trip) :
    distStep m t =
      t.items.foldl
        (fun acc it =>
          if distIncluded it then updKey (distKeyOf t) (distAddItem it) acc
          else acc)
        (updKey (distKeyOf t) (fun r => { r with tripsCount := r.tripsCount + 1 })
          (ensureKey (distKeyOf t)
            (freshDistRec (distKeyOf t) (distNameOf t)) m)) := rfl

/-- The inner item fold of distStep does not change the key list. -/
theorem keysOf_distItemsFold (k : String) :
    ∀ (items : List TripItem) (m : List (String × DistSummaryRec)),
      keysOf (items.foldl
        (fun acc it =>
          if distIncluded it then updKey k (distAddItem it) acc else acc) m) =
      keysOf m := by
  intro items
  induction items with
  | nil => intro m; rfl
  | cons it rest ih =>
      intro m
      rw [List.foldl_cons]
      by_cases h : distIncluded it
      · rw [ih, if_pos h, keysOf_updKey]
      · rw [ih, if_neg h]

/-- The inner item fold of distStep adds the direct filtered item total to
any additive entry sum, provided the trip's key is present. -/
theorem sumEntries_distItemsFold {g : DistSummaryRec → Int}
    {gi : TripItem → Int}
    (hf : ∀ it v, g (distAddItem it v) = g v + gi it) (k : String) :
    ∀ (items : List TripItem) (m : List (String × DistSummaryRec)),
      (keysOf m).Nodup → k ∈ keysOf m →
      sumEntries g (items.foldl
        (fun acc it =>
          if distIncluded it then updKey k (distAddItem it) acc else acc) m) =
        sumEntries g m + itemsTotal distIncluded gi items := by
  intro items
  induction items with
  | nil => intro m _ _; simp [itemsTotal]
  | cons it rest ih =>
      intro m hnd hmem
      rw [List.foldl_cons, itemsTotal_cons]
      by_cases h : distIncluded it
      · rw [if_pos h,
          ih _ (by rwa [keysOf_updKey]) (by rwa [keysOf_updKey]),
          sumEntries_updKey (hf it) _ hnd hmem, if_pos h]
        ring
      · rw [if_neg h, ih _ hnd hmem, if_neg h]
        ring

/-- distStep preserves key distinctness. -/
theorem nodup_keysOf_distStep {m : List (String × DistSummaryRec)} (t : Trip)
    (h : (keysOf m).Nodup) : (keysOf (distStep m t)).Nodup := by
  rw [distStep_eq, keysOf_distItemsFold, keysOf_updKey]
  exact nodup_keysOf_ensureKey h

/-- distStep adds exactly the trip's filtered item total to any entry sum
whose projection is additive over distAddItem, unchanged by the tripsCount
bump and zero on fresh entries. -/
theorem sumEntries_distStep {g : DistSummaryRec → Int} {gi : TripItem → Int}
    (hf : ∀ it v, g (distAddItem it v) = g v + gi it)
    (hcount : ∀ v : DistSummaryRec,
      g { v with tripsCount := v.tripsCount + 1 } = g v)
    (h0 : ∀ i n, g (freshDistRec i n) = 0)
    (t : Trip) (m : List (String × DistSummaryRec))
    (hnd : (keysOf m).Nodup) :
    sumEntries g (distStep m t) =
      sumEntries g m + itemsTotal distIncluded gi t.items := by
  rw [distStep_eq]
  have hnd1 : (keysOf (ensureKey (distKeyOf t)
      (freshDistRec (distKeyOf t) (distNameOf t)) m)).Nodup :=
    nodup_keysOf_ensureKey hnd
  have hmem1 := mem_keysOf_ensureKey (distKeyOf t)
    (freshDistRec (distKeyOf t) (distNameOf t)) m
  have hcount' : ∀ v : DistSummaryRec,
      g { v with tripsCount := v.tripsCount + 1 } = g v + 0 := by
    intro v; rw [hcount]; ring
  rw [sumEntries_distItemsFold hf (distKeyOf t) _ _
      (by rwa [keysOf_updKey]) (by rwa [keysOf_updKey]),
    sumEntries_updKey hcount' _ hnd1 hmem1,
    sumEntries_ensureKey g _ _ _ (h0 _ _)]
  ring

/-- The entry sums of the per-distributor summary map are the direct item
totals over the items with a populated book. -/
theorem sumEntries_distSummariesMap (g : DistSummaryRec → Int)
    (gi : TripItem → Int)
    (hf : ∀ it v, g (distAddItem it v) = g v + gi it)
    (hcount : ∀ v : DistSummaryRec,
      g { v with tripsCount := v.tripsCount + 1 } = g v)
    (h0 : ∀ i n, g (freshDistRec i n) = 0) (trips : List Trip) :
    sumEntries g (distSummariesMap trips) =
      tripsTotal distIncluded gi trips := by
  suffices h : ∀ (ts : List Trip) (m : List (String × DistSummaryRec)),
      (keysOf m).Nodup →
      sumEntries g (ts.foldl distStep m) =
        sumEntries g m + tripsTotal distIncluded gi ts by
    simpa [sumEntries, keysOf, distSummariesMap, tripsTotal] using
      h trips [] (by simp [keysOf])
  intro ts
  induction ts with
  | nil => intro m _; simp [tripsTotal]
  | cons t rest ih =>
      intro m hnd
      rw [List.foldl_cons, ih _ (nodup_keysOf_distStep t hnd),
        sumEntries_distStep hf hcount h0 t m hnd]
      simp [tripsTotal]
      ring

/-- The two report inclusion filters agree on every item whose populated
book carries a truthy id. -/
theorem tripsTotal_filters_agree (gi : TripItem → Int) (trips : List Trip)
    (h : ∀ t ∈ trips, ∀ it ∈ t.items,
      it.book.isSome = true → bookIncluded it = true) :
    tripsTotal bookIncluded gi trips = tripsTotal distIncluded gi trips := by
  unfold tripsTotal
  congr 1
  apply List.map_congr_left
  intro t ht
  unfold itemsTotal
  congr 2
  apply List.filter_congr
  intro it hit
  by_cases hb : it.book.isSome = true
  · rw [h t ht it hit hb]
    unfold distIncluded
    rw [hb]
  · have hn : it.book = none := Option.not_isSome_iff_eq_none.mp hb
    simp [bookIncluded, distIncluded, hn]

/-- The reduce step of computeTripSummary is component-wise addition of the
item-level metric bundle. -/
theorem summaryStep_eq_add (acc : TripSummary) (it : TripItem) :
    summaryStep acc it = acc.add (itemMetrics it) := rfl

/-- Right-commutativity of the reduce step: adding two items in either
order yields the same accumulator. -/
instance : RightCommutative summaryStep where
  right_comm b a₁ a₂ := by
    simp only [summaryStep, TripSummary.mk.injEq]
    refine ⟨?_, ?_, ?_, ?_, ?_, ?_⟩ <;> omega

/-- C8: computeTripSummary is exactly the component-wise sum of the
item-level metric bundles, is invariant under any permutation of the item
list, and yields the all-zero aggregate on a trip with no items. -/
theorem trip_summary_is_sum :
    (∀ t : Trip, computeTripSummary t = sumMetrics t.items) ∧
    (∀ t₁ t₂ : Trip, t₁.items.Perm t₂.items →
      computeTripSummary t₁ = computeTripSummary t₂) ∧
    (∀ t : Trip, t.items = [] → computeTripSummary t = TripSummary.zero) := by
  refine ⟨?_, ?_, ?_⟩
  · intro t
    simp only [computeTripSummary, sumMetrics, List.foldl_map]
    rfl
  · intro t₁ t₂ h
    simp only [computeTripSummary]
    exact h.foldl_eq _
  · intro t h
    simp [computeTripSummary, h]

/-- Witness for trip_summary_is_sum: a concrete two-item trip, its swapped
version, and an empty trip. -/
theorem trip_summary_is_sum_witness :
    exTripAB.items.Perm exTripBA.items ∧
    computeTripSummary exTripAB = computeTripSummary exTripBA ∧
    exTripEmpty.items = [] ∧
    computeTripSummary exTripEmpty = TripSummary.zero :=
  ⟨List.Perm.swap _ _ _,
    trip_summary_is_sum.2.1 exTripAB exTripBA (List.Perm.swap _ _ _),
    rfl, trip_summary_is_sum.2.2 exTripEmpty rfl⟩

/-- Unfolding of dashTripStep. -/
theorem dashTripStep_eq (m : List (String × DailyAgg)) (t : Trip) :
    dashTripStep m t =
      t.items.foldl (fun acc it => updKey t.date (fun a => dashAddItem a it) acc)
        (ensureKey t.date (dashEmptyAgg t.date) m) := rfl

/-- The inner item fold of dashTripStep does not change the key list. -/
theorem keysOf_dashItemsFold (d : String) :
    ∀ (items : List TripItem) (m : List (String × DailyAgg)),
      keysOf (items.foldl
        (fun acc it => updKey d (fun a => dashAddItem a it) acc) m) =
      keysOf m := by
  intro items
  induction items with
  | nil => intro m; rfl
  | cons it rest ih =>
      intro m
      rw [List.foldl_cons, ih, keysOf_updKey]

/-- dashTripStep preserves key distinctness. -/
theorem nodup_keysOf_dashTripStep {m : List (String × DailyAgg)} (t : Trip)
    (h : (keysOf m).Nodup) : (keysOf (dashTripStep m t)).Nodup := by
  rw [dashTripStep_eq, keysOf_dashItemsFold]
  exact nodup_keysOf_ensureKey h

/-- Keys only grow under dashTripStep, and the trip's raw date is among
them afterwards. -/
theorem keysOf_dashTripStep_mem (m : List (String × DailyAgg)) (t : Trip) :
    keysOf m ⊆ keysOf (dashTripStep m t) ∧
    t.date ∈ keysOf (dashTripStep m t) := by
  rw [dashTripStep_eq, keysOf_dashItemsFold]
  exact ⟨keysOf_subset_ensureKey _ _ _, mem_keysOf_ensureKey _ _ _⟩

/-- Keys only grow along the outer trip fold. -/
theorem keysOf_subset_dashFold :
    ∀ (ts : List Trip) (m : List (String × DailyAgg)),
      keysOf m ⊆ keysOf (ts.foldl dashTripStep m) := by
  intro ts
  induction ts with
  | nil => intro m x hx; exact hx
  | cons t rest ih =>
      intro m
      exact fun x hx => ih _ ((keysOf_dashTripStep_mem m t).1 hx)

/-- Every processed trip's raw date is a bucket key of the fold result. -/
theorem date_mem_keysOf_dashFold :
    ∀ (ts : List Trip) (m : List (String × DailyAgg)) (t : Trip), t ∈ ts →
      t.date ∈ keysOf (ts.foldl dashTripStep m) := by
  intro ts
  induction ts with
  | nil => intro m t ht; cases ht
  | cons t' rest ih =>
      intro m t ht
      rw [List.foldl_cons]
      rcases List.mem_cons.mp ht with he | hm
      · subst he
        exact keysOf_subset_dashFold rest _ ((keysOf_dashTripStep_mem m t).2)
      · exact ih _ t hm

/-- dashAddItem does not change a bucket's date. -/
theorem dashAddItem_date (a : DailyAgg) (it : TripItem) :
    (dashAddItem a it).date = a.date := rfl

/-- An entry-wise property is preserved by ensureKey when the fresh entry
satisfies it. -/
theorem pred_ensureKey {β : Type} (P : String × β → Prop) (k : String)
    (v0 : β) (m : List (String × β)) (hm : ∀ p ∈ m, P p) (hv : P (k, v0)) :
    ∀ p ∈ ensureKey k v0 m, P p := by
  intro p hp
  unfold ensureKey at hp
  split at hp
  · exact hm p hp
  · rcases List.mem_append.mp hp with h1 | h2
    · exact hm p h1
    · rw [List.mem_singleton.mp h2]
      exact hv

/-- An entry-wise property is preserved by updKey when the update preserves
it. -/
theorem pred_updKey {β : Type} (P : String × β → Prop) (k : String)
    (f : β → β) (m : List (String × β)) (hm : ∀ p ∈ m, P p)
    (hf : ∀ p ∈ m, P p → P (p.1, f p.2)) :
    ∀ p ∈ updKey k f m, P p := by
  intro p hp
  obtain ⟨q, hq, hqe⟩ := List.mem_map.mp hp
  by_cases hk : q.1 = k
  · rw [← hqe, if_pos hk]
    exact hf q hq (hm q hq)
  · rw [← hqe, if_neg hk]
    exact hm q hq

/-- In the byDate map every bucket's stored date equals its key.  This is
the invariant that lets bucket dates stand in for bucket keys. -/
theorem datesInv_dashFold :
    ∀ (ts : List Trip) (m : List (String × DailyAgg)),
      (∀ p ∈ m, (p.2 : DailyAgg).date = p.1) →
      ∀ p ∈ ts.foldl dashTripStep m, (p.2 : DailyAgg).date = p.1 := by
  intro ts
  induction ts with
  | nil => intro m h; exact h
  | cons t rest ih =>
      intro m h
      rw [List.foldl_cons]
      refine ih _ ?_
      rw [dashTripStep_eq]
      have hens : ∀ p ∈ ensureKey t.date (dashEmptyAgg t.date) m,
          (p.2 : DailyAgg).date = p.1 :=
        pred_ensureKey _ _ _ _ h rfl
      generalize ensureKey t.date (dashEmptyAgg t.date) m = m0 at hens
      induction t.items generalizing m0 with
      | nil => exact hens
      | cons it restIt ihIt =>
          rw [List.foldl_cons]
          refine ihIt _ ?_
          refine pred_updKey _ _ _ _ hens ?_
          intro p _ hp
          rw [dashAddItem_date]
          exact hp

/-- Membership in an insertDesc result. -/
theorem mem_insertDesc (x a : DailyAgg) :
    ∀ l : List DailyAgg, x ∈ insertDesc a l ↔ x = a ∨ x ∈ l := by
  intro l
  induction l with
  | nil => simp [insertDesc]
  | cons b rest ih =>
      unfold insertDesc
      split
      · simp
      · simp [ih]
        tauto

/-- insertDesc is a permutation of pushing in front. -/
theorem insertDesc_perm (a : DailyAgg) :
    ∀ l : List DailyAgg, (insertDesc a l).Perm (a :: l) := by
  intro l
  induction l with
  | nil => exact List.Perm.refl _
  | cons b rest ih =>
      unfold insertDesc
      split
      · exact List.Perm.refl _
      · exact (ih.cons b).trans (List.Perm.swap a b rest)

/-- The string order on the character lists is the string order. -/
theorem data_lt_iff (s t : String) : s.data < t.data ↔ s < t :=
  Iff.symm String.lt_iff_toList_lt

/-- insertDesc preserves the weakly-descending-by-date invariant. -/
theorem insertDesc_pairwise (a : DailyAgg) :
    ∀ l : List DailyAgg,
      l.Pairwise (fun x y => y.date ≤ x.date) →
      (insertDesc a l).Pairwise (fun x y => y.date ≤ x.date) := by
  intro l
  induction l with
  | nil => intro _; simp [insertDesc]
  | cons b rest ih =>
      intro h
      obtain ⟨hb, hrest⟩ := List.pairwise_cons.mp h
      unfold insertDesc
      split
      · rename_i hlt
        have hba : b.date < a.date := (data_lt_iff _ _).mp hlt
        refine List.pairwise_cons.mpr ⟨?_, h⟩
        intro x hx
        rcases List.mem_cons.mp hx with he | hm
        · rw [he]; exact le_of_lt hba
        · exact le_trans (hb x hm) (le_of_lt hba)
      · rename_i hnlt
        have hab : a.date ≤ b.date := le_of_not_lt
          (fun hc => hnlt ((data_lt_iff _ _).mpr hc))
        refine List.pairwise_cons.mpr ⟨?_, ih hrest⟩
        intro x hx
        rcases (mem_insertDesc x a rest).mp hx with he | hm
        · rw [he]; exact hab
        · exact hb x hm

/-- sortByDateDesc permutes its input. -/
theorem sortByDateDesc_perm (l : List DailyAgg) :
    (sortByDateDesc l).Perm l := by
  induction l with
  | nil => exact List.Perm.refl _
  | cons a rest ih =>
      have : sortByDateDesc (a :: rest) = insertDesc a (sortByDateDesc rest) := rfl
      rw [this]
      exact (insertDesc_perm a _).trans (ih.cons a)

/-- sortByDateDesc produces a weakly-descending-by-date list. -/
theorem sortByDateDesc_pairwise (l : List DailyAgg) :
    (sortByDateDesc l).Pairwise (fun x y => y.date ≤ x.date) := by
  induction l with
  | nil => simp [sortByDateDesc]
  | cons a rest ih =>
      have : sortByDateDesc (a :: rest) = insertDesc a (sortByDateDesc rest) := rfl
      rw [this]
      exact insertDesc_pairwise a _ ih

/-- C3 counterexample: the Dashboard day aggregator keys its buckets by the
RAW trip.date string, so the trips dated 2024-01-05T10:00:00Z and
2024-01-05 land in two DIFFERENT buckets instead of one shared bucket
2024-01-05. -/
theorem daily_buckets_not_normalized :
    (dailyAggs [exTripIsoDate, exTripPlainDate]).map DailyAgg.date =
      ["2024-01-05T10:00:00Z", "2024-01-05"] ∧
    (dailyAggs [exTripIsoDate, exTripPlainDate]).length = 2 := by
  constructor <;> decide

/-- C3 amended: the day aggregator buckets trips by the raw trip.date
string with no truncation/normalization (every trip's raw date is a bucket
key and keys are pairwise distinct, so trips sharing a raw date share one
bucket while differently-spelled dates of the same day split); the result
list is sorted strictly descending by date string and keeps at most the
most recent 7 buckets. -/
theorem daily_aggs_raw_date_desc_top7 :
    ∀ trips : List Trip,
      (∀ t ∈ trips, t.date ∈ keysOf (dashByDate trips)) ∧
      (keysOf (dashByDate trips)).Nodup ∧
      (dailyAggs trips).Pairwise (fun a b => b.date < a.date) ∧
      (dailyAggs trips).length ≤ 7 := by
  intro trips
  have hmem : ∀ t ∈ trips, t.date ∈ keysOf (dashByDate trips) :=
    fun t ht => date_mem_keysOf_dashFold trips [] t ht
  have hnodupAux : ∀ (ts : List Trip) (m : List (String × DailyAgg)),
      (keysOf m).Nodup → (keysOf (ts.foldl dashTripStep m)).Nodup := by
    intro ts
    induction ts with
    | nil => intro m h; exact h
    | cons t rest ih =>
        intro m h
        exact ih _ (nodup_keysOf_dashTripStep t h)
  have hnodup : (keysOf (dashByDate trips)).Nodup :=
    hnodupAux trips [] (by simp [keysOf])
  have hinv : ∀ p ∈ dashByDate trips, (p.2 : DailyAgg).date = p.1 :=
    datesInv_dashFold trips [] (by intro p hp; cases hp)
  have hdates : ((dashByDate trips).map Prod.snd).map DailyAgg.date =
      keysOf (dashByDate trips) := by
    rw [List.map_map]
    exact List.map_congr_left hinv
  have hnodupDates :
      (((dashByDate trips).map Prod.snd).map DailyAgg.date).Nodup :=
    hdates ▸ hnodup
  have hperm := sortByDateDesc_perm ((dashByDate trips).map Prod.snd)
  have hnodupSorted :
      ((sortByDateDesc ((dashByDate trips).map Prod.snd)).map
        DailyAgg.date).Nodup :=
    ((hperm.map DailyAgg.date).nodup_iff).mpr hnodupDates
  have hpairNe : (sortByDateDesc ((dashByDate trips).map Prod.snd)).Pairwise
      (fun a b => a.date ≠ b.date) :=
    List.pairwise_map.mp hnodupSorted
  have hpairLe := sortByDateDesc_pairwise ((dashByDate trips).map Prod.snd)
  have hstrict : (sortByDateDesc ((dashByDate trips).map Prod.snd)).Pairwise
      (fun a b => b.date < a.date) := by
    refine (hpairLe.and hpairNe).imp ?_
    intro a b hab
    exact lt_of_le_of_ne hab.1 (Ne.symm hab.2)
  refine ⟨hmem, hnodup, ?_, ?_⟩
  · exact hstrict.sublist (List.take_sublist 7 _)
  · rw [dailyAggs, List.length_take]
    exact min_le_left _ _

/-- Witness for daily_aggs_raw_date_desc_top7 on the two concrete trips. -/
theorem daily_aggs_raw_date_desc_top7_witness :
    exTripIsoDate ∈ [exTripIsoDate, exTripPlainDate] ∧
    exTripIsoDate.date ∈ keysOf (dashByDate [exTripIsoDate, exTripPlainDate]) :=
  ⟨by decide,
    (daily_aggs_raw_date_desc_top7 [exTripIsoDate, exTripPlainDate]).1
      exTripIsoDate (by decide)⟩

/-- C2 counterexample: on a trip whose single item has a populated book
without an _id, the per-book loop skips the item (its continue tests the
_id) while the per-distributor loop counts it (its continue only tests
presence of the book object), so the two report views disagree in every
compared total. -/
theorem book_vs_dist_totals_disagree :
    sumEntries BookSummaryRec.totalSold (bookSummariesMap [exTripNoId]) ≠
      sumEntries DistSummaryRec.booksSold (distSummariesMap [exTripNoId]) ∧
    sumEntries BookSummaryRec.expectedAmount (bookSummariesMap [exTripNoId]) ≠
      sumEntries DistSummaryRec.expectedAmount (distSummariesMap [exTripNoId]) ∧
    sumEntries BookSummaryRec.amountCollected (bookSummariesMap [exTripNoId]) ≠
      sumEntries DistSummaryRec.amountCollected (distSummariesMap [exTripNoId]) := by
  refine ⟨?_, ?_, ?_⟩ <;> decide

/-- C2 amended: when every populated book reference carries a truthy _id
(the only situation in which the two loops include the same items), the
aggregate totals of the per-book and per-distributor report views agree in
totalSold/booksSold, expectedAmount, and amountCollected. -/
theorem report_totals_agree_when_books_resolved :
    ∀ trips : List Trip,
      (∀ t ∈ trips, ∀ it ∈ t.items,
        it.book.isSome = true → bookIncluded it = true) →
      sumEntries BookSummaryRec.totalSold (bookSummariesMap trips) =
        sumEntries DistSummaryRec.booksSold (distSummariesMap trips) ∧
      sumEntries BookSummaryRec.expectedAmount (bookSummariesMap trips) =
        sumEntries DistSummaryRec.expectedAmount (distSummariesMap trips) ∧
      sumEntries BookSummaryRec.amountCollected (bookSummariesMap trips) =
        sumEntries DistSummaryRec.amountCollected (distSummariesMap trips) := by
  intro trips h
  refine ⟨?_, ?_, ?_⟩
  · rw [sumEntries_bookSummariesMap BookSummaryRec.totalSold
        reportSold (fun it v => rfl) (fun bid nm => rfl),
      sumEntries_distSummariesMap DistSummaryRec.booksSold
        reportSold (fun it v => rfl) (fun v => rfl) (fun i n => rfl)]
    exact tripsTotal_filters_agree reportSold trips h
  · rw [sumEntries_bookSummariesMap BookSummaryRec.expectedAmount
        reportExpected (fun it v => rfl) (fun bid nm => rfl),
      sumEntries_distSummariesMap DistSummaryRec.expectedAmount
        reportExpected (fun it v => rfl) (fun v => rfl) (fun i n => rfl)]
    exact tripsTotal_filters_agree reportExpected trips h
  · rw [sumEntries_bookSummariesMap BookSummaryRec.amountCollected
        returnedAmtOf (fun it v => rfl) (fun bid nm => rfl),
      sumEntries_distSummariesMap DistSummaryRec.amountCollected
        returnedAmtOf (fun it v => rfl) (fun v => rfl) (fun i n => rfl)]
    exact tripsTotal_filters_agree returnedAmtOf trips h

/-- Witness for report_totals_agree_when_books_resolved on a concrete trip
list with a fully resolved book. -/
theorem report_totals_agree_when_books_resolved_witness :
    (∀ t ∈ [exTripResolved], ∀ it ∈ t.items,
      it.book.isSome = true → bookIncluded it = true) ∧
    sumEntries BookSummaryRec.totalSold (bookSummariesMap [exTripResolved]) =
      sumEntries DistSummaryRec.booksSold (distSummariesMap [exTripResolved]) :=
  ⟨by decide, (report_totals_agree_when_books_resolved [exTripResolved]
    (by decide)).1⟩

/-- C10: normalizeDate is total and returns the claimed string on every
branch: empty for falsy inputs, the first 10 characters for string inputs,
the truncated ISO form for convertible non-strings, and empty for
non-strings that do not convert to a valid date. -/
theorem normalize_date_total :
    normalizeDate .falsy = "" ∧
    (∀ s : String, normalizeDate (.str s) = s.take 10) ∧
    normalizeDate (.nonString none) = "" ∧
    (∀ iso : String, normalizeDate (.nonString (some iso)) = iso.take 10) := by
  refine ⟨rfl, ?_, rfl, fun iso => rfl⟩
  intro s
  by_cases h : s.isEmpty
  · have hs : s = "" := (String.isEmpty_iff s).mp h
    subst hs
    rfl
  · simp [normalizeDate, h]

end BookDist
